import Mathlib

/-!
Verification of the HeisenXP-Bot scoring and role-reconciliation engine.

The definitions below are a shallow embedding of the JavaScript source:
machine numbers become Nat/Int/Rat with explicit clamping, SQL updates
become pure state transformations, and thrown exceptions become explicit
error results.  Each definition cites the source location it embeds.
The repository packs several revisions of some modules; where a claim
cites two diverging revisions, both are embedded and named apart.
-/

namespace HeisenXP

/-- Number.MAX_SAFE_INTEGER, the JS-safe XP cap MAX_SAFE_XP of src/db.js
(part_004 line 311): 2 ^ 53 - 1. -/
def MAX_SAFE_XP : ℤ := 9007199254740991

/-- Embedding of clampDelta (part_004 lines 319-327).  On integer input the
Number coercion and Math.floor are the identity, non-finite inputs do not
arise, and the sign split mirrors sign * min(abs, MAX_SAFE_XP). -/
def clampDelta (n : ℤ) : ℤ :=
  if n = 0 then 0
  else if n < 0 then -(min (n.natAbs : ℤ) MAX_SAFE_XP)
  else min (n.natAbs : ℤ) MAX_SAFE_XP

/-- Embedding of clampXpTotal (part_004 lines 334-339) on integer input:
values at most 0 become 0, larger values are capped at MAX_SAFE_XP. -/
def clampXpTotal (n : ℤ) : ℤ :=
  if n ≤ 0 then 0 else min n MAX_SAFE_XP

/-- The delta actually applied by addXp (part_004 lines 600-609): a positive
clamped delta is truncated to the remaining headroom below MAX_SAFE_XP, a
negative one to the current balance. -/
def appliedDelta (currentXp d0 : ℤ) : ℤ :=
  if 0 < d0 then min d0 (MAX_SAFE_XP - currentXp)
  else if d0 < 0 then -(min (d0.natAbs : ℤ) currentXp)
  else 0

/-- Embedding of addXp (part_004 lines 588-636), returning the stored xp
after the call.  The row read yields the raw stored value; currentXp is its
clamp; when the applied delta is 0 the UPDATE is skipped and the stored
value is untouched; otherwise the SQL writes MIN(MAX_SAFE_XP, MAX(0, xp +
safeDelta)) and the follow-up normalization leaves clampXpTotal of that. -/
def addXp (stored delta : ℤ) : ℤ :=
  let currentXp := clampXpTotal stored
  let safeDelta := appliedDelta currentXp (clampDelta delta)
  if safeDelta = 0 then stored
  else clampXpTotal (min MAX_SAFE_XP (max 0 (stored + safeDelta)))

/-- Embedding of the earlier addXp revision (part_004 lines 135-149): the
UPDATE writes MAX(0, xp + delta) with no upper cap. -/
def addXpLegacy (stored delta : ℤ) : ℤ := max 0 (stored + delta)

/-- Stored xp after a sequence of addXp calls on a row freshly created by
ensureUser with xp = 0 (part_004 lines 574-581). -/
def addXpFold (deltas : List ℤ) : ℤ := deltas.foldl addXp 0

/-- Stored xp after a sequence of the legacy addXp calls from xp = 0. -/
def addXpLegacyFold (deltas : List ℤ) : ℤ := deltas.foldl addXpLegacy 0

/-- Embedding of levelFromXp (src/xp.js lines 1-4).  In JS the factor is
Math.max(1, Number(levelXpFactor) || 100), so a zero (or non-numeric)
factor falls back to 100 before the lower clamp.  For an integer xp at
least 0 and an integer factor at least 1, Math.floor(Math.sqrt(xp /
factor)) is the natural-number square root of the integer quotient. -/
def levelFromXp (xp levelXpFactor : ℤ) : ℕ :=
  Nat.sqrt ((max 0 xp).toNat / (max 1 (if levelXpFactor = 0 then 100 else levelXpFactor)).toNat)

/-- The level formula exactly as the spec words it: floor(sqrt(max(0, xp) /
max(1, factor))), with no fallback for a zero factor.  Used only to compare
against levelFromXp. -/
def levelFromXpSpec (xp levelXpFactor : ℤ) : ℕ :=
  Nat.sqrt ((max 0 xp).toNat / (max 1 levelXpFactor).toNat)

/-- Decay percent clamp from runDecayForGuild (part_000 line 43):
Math.min(0.95, Math.max(0, pct)). -/
def decayPct (p : ℚ) : ℚ := min (19 / 20) (max 0 p)

/-- Embedding of one user iteration of runDecayForGuild (part_000 lines
34-54) followed by the setXp clamp (part_004 lines 638-647): skip when the
message count reaches the activity floor, otherwise store
floor(xp * (1 - pct)), skipping the write when it equals the current xp. -/
def runDecayUser (xp msgCount minMessages : ℕ) (p : ℚ) : ℕ :=
  if minMessages ≤ msgCount then xp
  else
    let newXp := ⌊(xp : ℚ) * (1 - decayPct p)⌋
    if newXp = (xp : ℤ) then xp
    else (clampXpTotal newXp).toNat

/-- One member of a voice channel as the voice tick sees it. -/
structure VoiceMember where
  userId : ℕ
  bot : Bool
  selfMute : Bool
  selfDeaf : Bool
  serverMute : Bool
  serverDeaf : Bool
deriving DecidableEq, Repr

/-- Embedding of isMutedOrDeafened (part_001 lines 691-698). -/
def isMutedOrDeafened (m : VoiceMember) : Bool :=
  m.selfMute || m.serverMute || m.selfDeaf || m.serverDeaf

/-- A member the voice ticker counts as eligible: non-bot and neither muted
nor deafened (part_001 lines 717-721). -/
def voiceEligible (m : VoiceMember) : Bool := !m.bot && !(isMutedOrDeafened m)

/-- Embedding of one channel of runVoiceTick in voiceTicker.js (part_001
lines 700-751): the AFK channel is skipped entirely, eligible members are
collected, and the award goes to every eligible member when at least 2 are
eligible, otherwise to nobody.  Each listed member receives
voice_xp_per_min that tick. -/
def channelAwards (isAfk : Bool) (members : List VoiceMember) : List VoiceMember :=
  if isAfk then []
  else
    let elig := members.filter voiceEligible
    if elig.length < 2 then [] else elig

/-- Embedding of one channel of the inline voice tick handler of
src/index.js (lines 862-892): a member is awarded when they are eligible
and the TOTAL channel occupancy, bots and muted members included, exceeds
1 (the guard is ch.members.size <= 1, not a count of eligible members). -/
def channelAwardsIndex (members : List VoiceMember) : List VoiceMember :=
  if members.length ≤ 1 then [] else members.filter voiceEligible

/-- Role-sync action requested against the platform for one mapping. -/
inductive RoleAction where
  | grant
  | revoke
  | nothing
deriving DecidableEq, Repr

/-- Inputs of one (member, mapping) step of a role-synchronization pass. -/
structure RoleSyncInput where
  hasRole : Bool
  level : ℤ
  levelRequired : ℤ
  dropGraceDays : ℕ
  belowSince : Option ℕ
  nowMs : ℕ
deriving DecidableEq, Repr

/-- Result of one (member, mapping) step: the platform action requested and
the below_since value stored afterwards. -/
structure RoleSyncResult where
  action : RoleAction
  belowSince : Option ℕ
deriving DecidableEq, Repr

/-- Grace window in milliseconds: drop_grace_days * 24 * 60 * 60 * 1000
(part_003 line 28). -/
def graceMsOf (i : RoleSyncInput) : ℕ := i.dropGraceDays * 86400000

/-- JS falsiness of the stored below_since: both a missing row (null) and a
stored 0 fail the truthiness tests in roles.js and index.js. -/
def belowSinceUnset : Option ℕ → Bool
  | none => true
  | some b => b == 0

/-- Embedding of one mapping iteration of syncMemberRoles in roles.js
(part_003 lines 25-70).  Meeting the level clears the timer and grants when
the role is absent.  Below the level with a falsy timer, the timer starts
only when the role is held, and nothing else happens this pass.  With a
set timer, revocation is requested only when the role is held and strictly
more than the grace window has elapsed; the timer is then cleared.  Note
the below-level branch never clears the timer when the role is absent. -/
def syncMemberRolesStep (i : RoleSyncInput) : RoleSyncResult :=
  if i.levelRequired ≤ i.level then
    { action := if i.hasRole then .nothing else .grant, belowSince := none }
  else if belowSinceUnset i.belowSince then
    { action := .nothing
    , belowSince := if i.hasRole then some i.nowMs else i.belowSince }
  else
    match i.belowSince with
    | none => { action := .nothing, belowSince := none }
    | some b =>
      if i.hasRole ∧ graceMsOf i < i.nowMs - b then
        { action := .revoke, belowSince := none }
      else { action := .nothing, belowSince := some b }

/-- Embedding of one mapping iteration of syncUserRolesForMember in
src/index.js (lines 763-826).  Qualifying grants when absent and nulls a
truthy timer; below the level without the role the truthy timer is nulled;
below with the role a falsy timer is set to now and the pass continues;
with a set timer the role is removed when the grace is 0 or at least the
grace window has elapsed, and the timer is cleared in a finally block. -/
def syncUserRolesStep (i : RoleSyncInput) : RoleSyncResult :=
  if i.levelRequired ≤ i.level then
    { action := if i.hasRole then .nothing else .grant
    , belowSince := if belowSinceUnset i.belowSince then i.belowSince else none }
  else if !i.hasRole then
    { action := .nothing
    , belowSince := if belowSinceUnset i.belowSince then i.belowSince else none }
  else if belowSinceUnset i.belowSince then
    { action := .nothing, belowSince := some i.nowMs }
  else
    match i.belowSince with
    | none => { action := .nothing, belowSince := none }
    | some b =>
      if graceMsOf i = 0 ∨ graceMsOf i ≤ i.nowMs - b then
        { action := .revoke, belowSince := none }
      else { action := .nothing, belowSince := some b }

/-- One user as the decay pass of part_000 sees it, together with fault
flags for the two failure sources the pass can hit for that user: a
storage write throwing (setXp or the drop-state writes) and the platform
role API failing (roles.add / roles.remove). -/
structure DecayUser where
  userId : ℕ
  xp : ℕ
  msgCount : ℕ
  storageFails : Bool
  roleApiFails : Bool
deriving DecidableEq, Repr

/-- Outcome of one user iteration of runDecayForGuild (part_000 lines
34-54) with explicit errors.  A user at or above the activity floor, or
whose decayed xp is unchanged, is skipped.  A storage failure surfaces as
an exception (there is no try/catch around the loop body).  A role-API
failure does NOT surface: roles.js wraps roles.add and roles.remove in
try/catch and only logs (part_003 lines 35-39 and 63-67), so roleApiFails
never produces an error here. -/
def decayUserStep (minMessages : ℕ) (p : ℚ) (u : DecayUser) : Except ℕ (Option ℕ) :=
  if minMessages ≤ u.msgCount then .ok none
  else
    let newXp := ⌊(u.xp : ℚ) * (1 - decayPct p)⌋
    if newXp = (u.xp : ℤ) then .ok none
    else if u.storageFails then .error u.userId
    else .ok (some (clampXpTotal newXp).toNat)

/-- Embedding of the user loop of runDecayForGuild (part_000 lines 33-54):
users are processed in order; an exception in one iteration propagates out
of the for-loop, so the remaining users are not processed.  Returns the
decays applied, given as pairs of userId and new xp, and the userId at which
the pass aborted, when it did. -/
def runDecayForGuild (minMessages : ℕ) (p : ℚ) : List DecayUser → List (ℕ × ℕ) × Option ℕ
  | [] => ([], none)
  | u :: rest =>
    match decayUserStep minMessages p u with
    | .error e => ([], some e)
    | .ok none => runDecayForGuild minMessages p rest
    | .ok (some nx) =>
      let r := runDecayForGuild minMessages p rest
      ((u.userId, nx) :: r.1, r.2)

/-- Embedding of topUsers (part_004 lines 665-698).  The users table rows
of one guild are a list of (user_id, stored xp) in table order; ORDER BY
xp DESC with no tiebreak yields the rows ordered by descending xp, ties
kept in table order; LIMIT takes the prefix; the sanitize map clamps each
returned xp with clampXpTotal. -/
def topUsers (rows : List (ℕ × ℤ)) (limit : ℕ) : List (ℕ × ℤ) :=
  ((rows.mergeSort (fun a b => decide (b.2 ≤ a.2))).take limit).map
    (fun r => (r.1, clampXpTotal r.2))

/-- The guild_settings fields the /setxp path can touch (part_004 lines
531-542 restricted to that patch shape). -/
structure GuildSettings where
  msg_xp : ℤ
  reaction_xp : ℤ
  voice_xp_per_min : ℤ
  msg_cooldown_sec : ℤ
  reaction_cooldown_sec : ℤ
deriving DecidableEq, Repr

/-- The five optional integer options of the /setxp command (part_001
lines 1058-1062). -/
structure SetXpOptions where
  message : Option ℤ
  reaction : Option ℤ
  voice : Option ℤ
  msgcooldown : Option ℤ
  reactioncooldown : Option ℤ
deriving DecidableEq, Repr

/-- The per-event award cap MAX_XP_AWARD (part_001 line 803). -/
def MAX_XP_AWARD : ℤ := 1000000000

/-- Embedding of validateXpValue (part_001 lines 830-839) on an optional
integer option: true means an error message is produced.  Null passes;
Discord integers are finite, so the finiteness test cannot fire; negative
values and values above MAX_XP_AWARD are rejected. -/
def validateXpValueErr : Option ℤ → Bool
  | none => false
  | some v => decide (v < 0) || decide (MAX_XP_AWARD < v)

/-- The clampAward applied inside updateGuildSettings to the three award
fields (part_004 lines 549-554): max(0, min(floor v, MAX_XP_AWARD)). -/
def clampAward (v : ℤ) : ℤ := max 0 (min v MAX_XP_AWARD)

/-- Apply an optional patched value through a sanitizer, keeping the
current value when the option is absent. -/
def applyOpt (cur : ℤ) (o : Option ℤ) (f : ℤ → ℤ) : ℤ :=
  match o with
  | none => cur
  | some v => f v

/-- Embedding of updateGuildSettings (part_004 lines 528-569) restricted to
a /setxp patch: the three award fields pass through clampAward, the two
cooldown fields are written raw. -/
def updateGuildSettingsXp (s : GuildSettings) (o : SetXpOptions) : GuildSettings :=
  { msg_xp := applyOpt s.msg_xp o.message clampAward
  , reaction_xp := applyOpt s.reaction_xp o.reaction clampAward
  , voice_xp_per_min := applyOpt s.voice_xp_per_min o.voice clampAward
  , msg_cooldown_sec := applyOpt s.msg_cooldown_sec o.msgcooldown id
  , reaction_cooldown_sec := applyOpt s.reaction_cooldown_sec o.reactioncooldown id }

/-- Embedding of the /setxp handler (part_001 lines 1052-1095): the three
award options are validated first; any error replies and returns with no
call to updateGuildSettings, so the stored settings are untouched.  The
Bool result records whether the update was rejected. -/
def handleSetXp (s : GuildSettings) (o : SetXpOptions) : GuildSettings × Bool :=
  if validateXpValueErr o.message || validateXpValueErr o.reaction ||
      validateXpValueErr o.voice then
    (s, true)
  else (updateGuildSettingsXp s o, false)

/-- The users table restricted to xp, keyed by (guild_id, user_id), in
table order. -/
abbrev ScoreStore := List ((ℕ × ℕ) × ℤ)

/-- Row lookup of SELECT xp FROM users WHERE guild_id = g AND user_id = u. -/
def findXpRow (store : ScoreStore) (g u : ℕ) : Option ℤ :=
  (store.find? (fun r => r.1 == (g, u))).map (fun r => r.2)

/-- Embedding of getXp (part_004 lines 649-663): a missing row yields
clampXpTotal 0 = 0 with no write at all; an existing row with an
out-of-range value is normalized in place; the clamped value is returned.
The earlier revision (part_004 lines 160-163) returns row xp or 0 with no
normalization and likewise performs no insert. -/
def getXp (store : ScoreStore) (g u : ℕ) : ℤ × ScoreStore :=
  match findXpRow store g u with
  | none => (0, store)
  | some v =>
    let safe := clampXpTotal v
    if v = safe then (safe, store)
    else (safe, store.map (fun r => if r.1 = (g, u) then (r.1, safe) else r))

/-! Shared helper lemmas about the clamps. -/

theorem clampXpTotal_nonneg (n : ℤ) : 0 ≤ clampXpTotal n := by
  unfold clampXpTotal MAX_SAFE_XP
  split <;> omega

theorem clampXpTotal_le_max (n : ℤ) : clampXpTotal n ≤ MAX_SAFE_XP := by
  unfold clampXpTotal MAX_SAFE_XP
  split <;> omega

theorem clampXpTotal_eq_of_mem {n : ℤ} (h0 : 0 ≤ n) (h1 : n ≤ MAX_SAFE_XP) :
    clampXpTotal n = n := by
  unfold clampXpTotal MAX_SAFE_XP at *
  split <;> omega

theorem clampXpTotal_mono {a b : ℤ} (h : a ≤ b) : clampXpTotal a ≤ clampXpTotal b := by
  unfold clampXpTotal MAX_SAFE_XP
  split <;> split <;> omega

theorem addXp_mem {s : ℤ} (h0 : 0 ≤ s) (h1 : s ≤ MAX_SAFE_XP) (d : ℤ) :
    0 ≤ addXp s d ∧ addXp s d ≤ MAX_SAFE_XP := by
  simp only [addXp]
  split
  · exact ⟨h0, h1⟩
  · exact ⟨clampXpTotal_nonneg _, clampXpTotal_le_max _⟩

theorem addXpFold_mem_aux (l : List ℤ) :
    ∀ s : ℤ, 0 ≤ s → s ≤ MAX_SAFE_XP →
      0 ≤ l.foldl addXp s ∧ l.foldl addXp s ≤ MAX_SAFE_XP := by
  induction l with
  | nil => intro s h0 h1; exact ⟨h0, h1⟩
  | cons d rest ih =>
    intro s h0 h1
    have h := addXp_mem h0 h1 d
    simpa [List.foldl] using ih _ h.1 h.2

theorem addXp_overflow {s d : ℤ} (h0 : 0 ≤ s) (h1 : s ≤ MAX_SAFE_XP) (hd : 0 < d)
    (hover : MAX_SAFE_XP < s + d) : addXp s d = MAX_SAFE_XP := by
  simp only [addXp, appliedDelta, clampDelta, clampXpTotal, MAX_SAFE_XP] at *
  split_ifs <;> omega

theorem addXp_underflow {s d : ℤ} (h0 : 0 ≤ s) (h1 : s ≤ MAX_SAFE_XP) (hd : d < 0)
    (hunder : s + d < 0) : addXp s d = 0 := by
  simp only [addXp, appliedDelta, clampDelta, clampXpTotal, MAX_SAFE_XP] at *
  split_ifs <;> omega

/-- The claim as frozen asserts the clamp invariant for every stored xp
produced by addXp; the earlier addXp revision of part_004 (lines 135-149)
writes MAX(0, xp + delta) with no upper cap, so two calls from a fresh row
leave a stored xp strictly above MAX_SAFE_INT. -/
theorem addXp_clamp_counterexample :
    MAX_SAFE_XP < addXpLegacyFold [MAX_SAFE_XP, 1] := by decide

/-- Claim C1 (amended): for the addXp of part_004 lines 588-636, the stored
xp after every call of any sequence stays an integer in [0, MAX_SAFE_INT];
a positive delta that would exceed MAX_SAFE_INT is truncated to the
remaining headroom, leaving exactly MAX_SAFE_INT, and a negative delta
that would take xp below 0 zeroes the balance exactly.  The earlier addXp
revision (part_004 lines 135-149) clamps only from below: its result is
never negative and a negative overshoot still zeroes the balance, but a
positive delta is applied with no upper cap. -/
theorem addXp_clamp_amended :
    (∀ deltas : List ℤ, 0 ≤ addXpFold deltas ∧ addXpFold deltas ≤ MAX_SAFE_XP) ∧
    (∀ s d : ℤ, 0 ≤ s → s ≤ MAX_SAFE_XP →
      (0 < d → MAX_SAFE_XP < s + d → addXp s d = MAX_SAFE_XP) ∧
      (d < 0 → s + d < 0 → addXp s d = 0)) ∧
    (∀ s d : ℤ, 0 ≤ addXpLegacy s d) ∧
    (∀ s d : ℤ, s + d ≤ 0 → addXpLegacy s d = 0) := by
  refine ⟨fun deltas => addXpFold_mem_aux deltas 0 (by decide) (by decide),
    fun s d h0 h1 => ⟨fun hd hover => addXp_overflow h0 h1 hd hover,
      fun hd hunder => addXp_underflow h0 h1 hd hunder⟩,
    fun s d => le_max_left 0 (s + d), fun s d h => ?_⟩
  simp only [addXpLegacy]
  omega

/-- Witness: the amended C1 theorem applied at concrete inputs. -/
theorem addXp_clamp_amended_witness :
    0 ≤ addXpFold [5, -10, 3] ∧
    addXp 10 MAX_SAFE_XP = MAX_SAFE_XP ∧
    addXp 5 (-7) = 0 ∧
    addXpLegacy 5 (-7) = 0 :=
  ⟨(addXp_clamp_amended.1 [5, -10, 3]).1,
   (addXp_clamp_amended.2.1 10 MAX_SAFE_XP (by decide) (by decide)).1 (by decide) (by decide),
   (addXp_clamp_amended.2.1 5 (-7) (by decide) (by decide)).2 (by decide) (by decide),
   addXp_clamp_amended.2.2.2 5 (-7) (by decide)⟩

/-- The claim as frozen equates levelFromXp with floor(sqrt(max(0, xp) /
max(1, factor))) for every factor; at factor 0 the source falls back to
100 (the JS expression factor-or-100), while the spec formula clamps 0 up
to 1, and the two disagree at xp = 1. -/
theorem levelFromXp_spec_counterexample : levelFromXp 1 0 ≠ levelFromXpSpec 1 0 := by decide

/-- Claim C6 (amended): levelFromXp equals floor(sqrt(max(0, xp) / max(1,
factor))) for every nonzero factor, while a zero factor falls back to 100
before the clamp; the level is monotone non-decreasing in xp for every
fixed factor; with factor 100, xp 25 and 45 both give level 0 and any xp
at least 100 gives level at least 1. -/
theorem levelFromXp_amended :
    (∀ xp f : ℤ, f ≠ 0 → levelFromXp xp f = levelFromXpSpec xp f) ∧
    (∀ xp : ℤ, levelFromXp xp 0 = levelFromXpSpec xp 100) ∧
    (∀ xp1 xp2 f : ℤ, xp1 ≤ xp2 → levelFromXp xp1 f ≤ levelFromXp xp2 f) ∧
    levelFromXp 25 100 = 0 ∧ levelFromXp 45 100 = 0 ∧
    (∀ xp : ℤ, 100 ≤ xp → 1 ≤ levelFromXp xp 100) := by
  refine ⟨?_, ?_, ?_, by decide, by decide, ?_⟩
  · intro xp f hf
    simp only [levelFromXp, levelFromXpSpec, if_neg hf]
  · intro xp
    simp [levelFromXp, levelFromXpSpec]
  · intro xp1 xp2 f h
    simp only [levelFromXp]
    exact Nat.sqrt_le_sqrt (Nat.div_le_div_right (by omega))
  · intro xp hxp
    simp only [levelFromXp]
    rw [if_neg (by omega : (100 : ℤ) ≠ 0)]
    refine Nat.le_sqrt.mpr ?_
    have hmax : (max 1 (100 : ℤ)).toNat = 100 := by decide
    rw [hmax, one_mul, Nat.le_div_iff_mul_le (by norm_num)]
    omega

/-- Witness: the amended C6 theorem applied at concrete inputs. -/
theorem levelFromXp_amended_witness :
    levelFromXp 7 3 = levelFromXpSpec 7 3 ∧
    levelFromXp 25 100 ≤ levelFromXp 45 100 ∧
    1 ≤ levelFromXp 400 100 :=
  ⟨levelFromXp_amended.1 7 3 (by decide),
   levelFromXp_amended.2.2.1 25 45 100 (by decide),
   levelFromXp_amended.2.2.2.2.2 400 (by decide)⟩

/-! Decay lemmas. -/

theorem decayPct_le (p : ℚ) : decayPct p ≤ 19 / 20 := min_le_left _ _

theorem decayPct_nonneg (p : ℚ) : 0 ≤ decayPct p := le_min (by norm_num) (le_max_left _ _)

theorem decay_floor_nonneg (xp : ℕ) (p : ℚ) : 0 ≤ ⌊(xp : ℚ) * (1 - decayPct p)⌋ := by
  refine Int.floor_nonneg.mpr (mul_nonneg (by positivity) ?_)
  have := decayPct_le p
  linarith

theorem decay_floor_le (xp : ℕ) (p : ℚ) : ⌊(xp : ℚ) * (1 - decayPct p)⌋ ≤ (xp : ℤ) := by
  have h1 : (xp : ℚ) * (1 - decayPct p) ≤ (xp : ℚ) := by
    have := decayPct_nonneg p
    have hx : (0 : ℚ) ≤ (xp : ℚ) := by positivity
    nlinarith
  calc ⌊(xp : ℚ) * (1 - decayPct p)⌋ ≤ ⌊(xp : ℚ)⌋ := Int.floor_le_floor h1
    _ = (xp : ℤ) := Int.floor_natCast xp

/-- Claim C4: a user at or above the activity floor is left unchanged by
the decay pass; otherwise the stored xp becomes floor(xp * (1 - pct))
with pct clamped to [0, 0.95]; in particular 1000 xp with pct 0.10 and 5
messages against a floor of 20 decays to exactly 900. -/
theorem runDecayUser_correct :
    (∀ (xp msgCount minM : ℕ) (p : ℚ), minM ≤ msgCount →
      runDecayUser xp msgCount minM p = xp) ∧
    (∀ (xp msgCount minM : ℕ) (p : ℚ), (xp : ℤ) ≤ MAX_SAFE_XP → msgCount < minM →
      (runDecayUser xp msgCount minM p : ℤ) = ⌊(xp : ℚ) * (1 - min (19 / 20) (max 0 p))⌋) ∧
    runDecayUser 1000 5 20 (1 / 10) = 900 := by
  have key : ∀ (xp msgCount minM : ℕ) (p : ℚ), (xp : ℤ) ≤ MAX_SAFE_XP → msgCount < minM →
      (runDecayUser xp msgCount minM p : ℤ) = ⌊(xp : ℚ) * (1 - decayPct p)⌋ := by
    intro xp msgCount minM p hmax hlt
    have h0 := decay_floor_nonneg xp p
    have hle := decay_floor_le xp p
    simp only [runDecayUser, if_neg (by omega : ¬ minM ≤ msgCount)]
    split
    · omega
    · rw [clampXpTotal_eq_of_mem h0 (le_trans hle hmax), Int.toNat_of_nonneg h0]
  refine ⟨fun xp msgCount minM p h => by simp only [runDecayUser, if_pos h], key, ?_⟩
  have hpct : decayPct (1 / 10 : ℚ) = 1 / 10 := by
    unfold decayPct
    rw [max_eq_right (by norm_num), min_eq_right (by norm_num)]
  have h := key 1000 5 20 (1 / 10) (by decide) (by omega)
  rw [hpct] at h
  norm_num at h
  omega

/-- Witness: the C4 theorem applied at concrete inputs. -/
theorem runDecayUser_correct_witness :
    runDecayUser 50 30 20 (1 / 10) = 50 ∧
    (runDecayUser 1000 5 20 (1 / 10) : ℤ) =
      ⌊(1000 : ℚ) * (1 - min (19 / 20) (max 0 (1 / 10 : ℚ)))⌋ :=
  ⟨runDecayUser_correct.1 50 30 20 (1 / 10) (by decide),
   runDecayUser_correct.2.1 1000 5 20 (1 / 10) (by decide) (by decide)⟩

/-- The claim as frozen asserts every voice-tick implementation awards
nobody in a channel with exactly one eligible member; the inline handler
of src/index.js gates on total occupancy, so a channel holding one
eligible human and one bot still awards the human. -/
theorem voice_tick_counterexample :
    ((([⟨1, false, false, false, false, false⟩,
        ⟨2, true, false, false, false, false⟩] : List VoiceMember).filter
          voiceEligible).length = 1) ∧
    channelAwardsIndex
      [⟨1, false, false, false, false, false⟩,
       ⟨2, true, false, false, false, false⟩] ≠ [] := by decide

/-- Claim C5 (amended): for the voiceTicker.js tick, a channel with exactly
one eligible (non-bot, non-muted, non-deafened, non-AFK) member awards
nobody; with at least 2 eligible members, every eligible member is listed
for the voice_xp_per_min award; an ineligible member is never awarded and
does not stop the eligible members from being awarded.  The inline tick
handler of src/index.js instead awards a member exactly when the member
is eligible and the channel holds at least 2 members of any kind, so an
ineligible companion is enough to unlock a lone eligible member there. -/
theorem voice_tick_amended :
    (∀ (isAfk : Bool) (members : List VoiceMember),
      (members.filter voiceEligible).length = 1 → channelAwards isAfk members = []) ∧
    (∀ members : List VoiceMember, 2 ≤ (members.filter voiceEligible).length →
      ∀ m ∈ members, voiceEligible m = true → m ∈ channelAwards false members) ∧
    (∀ (isAfk : Bool) (members : List VoiceMember) (m : VoiceMember),
      voiceEligible m = false → m ∉ channelAwards isAfk members) ∧
    (∀ (members : List VoiceMember) (m : VoiceMember),
      m ∈ channelAwardsIndex members ↔
        m ∈ members ∧ voiceEligible m = true ∧ 2 ≤ members.length) := by
  refine ⟨?_, ?_, ?_, ?_⟩
  · intro isAfk members h
    simp only [channelAwards]
    split
    · rfl
    · rw [if_pos (by omega)]
  · intro members h m hm helig
    simp only [channelAwards, Bool.false_eq_true, if_false]
    rw [if_neg (by omega)]
    exact List.mem_filter.mpr ⟨hm, helig⟩
  · intro isAfk members m helig hmem
    simp only [channelAwards] at hmem
    split at hmem
    · simp at hmem
    · split at hmem
      · simp at hmem
      · exact absurd (List.mem_filter.mp hmem).2 (by simp [helig])
  · intro members m
    simp only [channelAwardsIndex]
    split
    · simp only [List.not_mem_nil, false_iff]
      intro ⟨_, _, h2⟩
      omega
    · rw [List.mem_filter]
      constructor
      · intro ⟨h1, h2⟩
        exact ⟨h1, h2, by omega⟩
      · intro ⟨h1, h2, _⟩
        exact ⟨h1, h2⟩

/-- Witness: the amended C5 theorem applied at concrete channels. -/
theorem voice_tick_amended_witness :
    channelAwards false
      [⟨1, false, false, false, false, false⟩,
       ⟨2, true, false, false, false, false⟩] = [] ∧
    (⟨1, false, false, false, false, false⟩ : VoiceMember) ∈ channelAwards false
      [⟨1, false, false, false, false, false⟩,
       ⟨2, false, false, false, false, false⟩,
       ⟨3, false, true, false, false, false⟩] ∧
    (⟨3, false, true, false, false, false⟩ : VoiceMember) ∉ channelAwards false
      [⟨1, false, false, false, false, false⟩,
       ⟨2, false, false, false, false, false⟩,
       ⟨3, false, true, false, false, false⟩] ∧
    ((⟨1, false, false, false, false, false⟩ : VoiceMember) ∈ channelAwardsIndex
      [⟨1, false, false, false, false, false⟩,
       ⟨2, true, false, false, false, false⟩]) :=
  ⟨voice_tick_amended.1 false _ (by decide),
   voice_tick_amended.2.1 _ (by decide) _ (by decide) (by decide),
   voice_tick_amended.2.2.1 false _ _ (by decide),
   (voice_tick_amended.2.2.2 _ _).mpr ⟨by decide, by decide, by decide⟩⟩

/-- The claim as frozen asserts a mapping with dropGraceDays 0 is revoked
on the first pass that sees level below requiredLevel; both cited
implementations only start the timer on that pass and request nothing. -/
theorem grace_zero_counterexample :
    (syncMemberRolesStep ⟨true, 0, 5, 0, none, 1000⟩).action ≠ RoleAction.revoke ∧
    (syncUserRolesStep ⟨true, 0, 5, 0, none, 1000⟩).action ≠ RoleAction.revoke := by decide

/-- Claim C2 (amended): with dropGraceDays 0, the first pass that observes
a role holder below the required level only records belowSince = now and
requests no action, in both syncMemberRoles (roles.js) and
syncUserRolesForMember (index.js); revocation is requested on a LATER
pass: unconditionally in index.js (its grace-0 test short-circuits), and
in roles.js as soon as the later pass runs at a strictly later time. -/
theorem grace_zero_amended :
    ∀ (lvl req : ℤ) (b now : ℕ), lvl < req →
      (syncMemberRolesStep ⟨true, lvl, req, 0, none, now⟩ =
        { action := .nothing, belowSince := some now } ∧
       syncUserRolesStep ⟨true, lvl, req, 0, none, now⟩ =
        { action := .nothing, belowSince := some now }) ∧
      (b ≠ 0 → (syncUserRolesStep ⟨true, lvl, req, 0, some b, now⟩).action = .revoke) ∧
      (b ≠ 0 → b < now →
        (syncMemberRolesStep ⟨true, lvl, req, 0, some b, now⟩).action = .revoke) := by
  intro lvl req b now hlt
  have hreq : ¬ req ≤ lvl := by omega
  refine ⟨⟨?_, ?_⟩, ?_, ?_⟩
  · simp [syncMemberRolesStep, belowSinceUnset, hreq]
  · simp [syncUserRolesStep, belowSinceUnset, hreq]
  · intro hb
    simp [syncUserRolesStep, belowSinceUnset, hreq, hb, graceMsOf]
  · intro hb hbn
    simp only [syncMemberRolesStep, belowSinceUnset, if_neg hreq]
    rw [if_neg (by simp [hb])]
    split
    · rfl
    · next h =>
      exfalso
      apply h
      constructor
      · simp
      · simp only [graceMsOf]
        omega

/-- Witness: the amended C2 theorem applied at concrete inputs. -/
theorem grace_zero_amended_witness :
    syncMemberRolesStep ⟨true, 0, 5, 0, none, 1000⟩ =
      { action := .nothing, belowSince := some 1000 } ∧
    (syncUserRolesStep ⟨true, 0, 5, 0, some 1000, 2000⟩).action = RoleAction.revoke ∧
    (syncMemberRolesStep ⟨true, 0, 5, 0, some 1000, 2000⟩).action = RoleAction.revoke :=
  ⟨((grace_zero_amended 0 5 1000 1000 (by decide)).1).1,
   (grace_zero_amended 0 5 1000 2000 (by decide)).2.1 (by decide),
   (grace_zero_amended 0 5 1000 2000 (by decide)).2.2 (by decide) (by decide)⟩

/-- The claim as frozen asserts every pass clears belowSince when the user
is below the level and lacks the role; the syncMemberRoles of roles.js
leaves a previously set belowSince in place in exactly that situation. -/
theorem belowSince_stale_counterexample :
    (syncMemberRolesStep ⟨false, 0, 5, 3, some 5, 1000⟩).belowSince = some 5 := by decide

/-- Claim C3 (amended): for syncUserRolesForMember (index.js) the invariant
holds on every input whose stored timer is not the degenerate falsy value
0: after the pass, belowSince is non-null only when the user holds the
role, and a user below the level without the role has belowSince cleared.
For syncMemberRoles (roles.js) the pass clears belowSince whenever the
level is met, but when the user is below the level WITHOUT the role it
leaves the stored belowSince untouched, so a stale timer survives there. -/
theorem belowSince_invariant_amended :
    ∀ i : RoleSyncInput, i.belowSince ≠ some 0 →
      ((syncUserRolesStep i).belowSince = none ∨ i.hasRole = true) ∧
      (i.level < i.levelRequired → i.hasRole = false →
        (syncUserRolesStep i).belowSince = none ∧
        (syncMemberRolesStep i).belowSince = i.belowSince) ∧
      (i.levelRequired ≤ i.level → (syncMemberRolesStep i).belowSince = none) := by
  intro i hb
  obtain ⟨hasRole, lvl, req, grace, below, now⟩ := i
  refine ⟨?_, ?_, ?_⟩
  · by_cases hr : hasRole
    · exact Or.inr hr
    · refine Or.inl ?_
      simp only [syncUserRolesStep, hr]
      split
      · cases below with
        | none => simp [belowSinceUnset]
        | some b =>
          have : b ≠ 0 := fun h => hb (by simp [h])
          simp [belowSinceUnset, this]
      · cases below with
        | none => simp [belowSinceUnset]
        | some b =>
          have : b ≠ 0 := fun h => hb (by simp [h])
          simp [belowSinceUnset, this]
  · intro hlt hr
    have hreq : ¬ req ≤ lvl := by simp at hlt ⊢; omega
    subst hr
    constructor
    · simp only [syncUserRolesStep, if_neg hreq]
      cases below with
      | none => simp [belowSinceUnset]
      | some b =>
        have : b ≠ 0 := fun h => hb (by simp [h])
        simp [belowSinceUnset, this]
    · simp only [syncMemberRolesStep, if_neg hreq]
      cases below with
      | none => simp [belowSinceUnset]
      | some b =>
        by_cases h0 : b = 0
        · simp [belowSinceUnset, h0]
        · simp [belowSinceUnset, h0]
  · intro hge
    have hreq : req ≤ lvl := hge
    simp [syncMemberRolesStep, if_pos hreq]

/-- Witness: the amended C3 theorem applied at a concrete input. -/
theorem belowSince_invariant_amended_witness :
    (syncUserRolesStep ⟨false, 0, 5, 3, some 5, 1000⟩).belowSince = none ∧
    (syncMemberRolesStep ⟨false, 0, 5, 3, some 5, 1000⟩).belowSince = some 5 :=
  ⟨((belowSince_invariant_amended ⟨false, 0, 5, 3, some 5, 1000⟩ (by decide)).2.1
      (by decide) rfl).1,
   ((belowSince_invariant_amended ⟨false, 0, 5, 3, some 5, 1000⟩ (by decide)).2.1
      (by decide) rfl).2⟩

/-! Decay-pass error propagation. -/

theorem decayUserStep_no_error_of_storage_ok (minM : ℕ) (p : ℚ) (u : DecayUser)
    (h : u.storageFails = false) (e : ℕ) : decayUserStep minM p u ≠ .error e := by
  simp only [decayUserStep]
  split
  · simp
  · split
    · simp
    · rw [if_neg (by simp [h])]
      simp

theorem runDecayForGuild_no_abort (minM : ℕ) (p : ℚ) :
    ∀ users : List DecayUser, (∀ u ∈ users, u.storageFails = false) →
      (runDecayForGuild minM p users).2 = none := by
  intro users
  induction users with
  | nil => intro _; rfl
  | cons u rest ih =>
    intro h
    have hu := h u (List.mem_cons_self u rest)
    have hrest := fun v hv => h v (List.mem_cons_of_mem u hv)
    simp only [runDecayForGuild]
    split
    · next e heq => exact absurd heq (decayUserStep_no_error_of_storage_ok minM p u hu e)
    · exact ih hrest
    · exact ih hrest

/-- The claim as frozen asserts a storage failure for one user does not
abort the decay pass for the remaining users; in part_000 the user loop
has no per-user try/catch, so the exception of the first user ends the
pass and the second user, though due for decay, is left unprocessed. -/
theorem decay_pass_abort_counterexample :
    runDecayForGuild 20 (1 / 10)
      [⟨1, 1000, 5, true, false⟩, ⟨2, 1000, 5, false, false⟩] = ([], some 1) := by
  have hpct : decayPct (1 / 10 : ℚ) = 1 / 10 := by
    unfold decayPct
    rw [max_eq_right (by norm_num), min_eq_right (by norm_num)]
  have hfl : ⌊((1000 : ℕ) : ℚ) * (1 - decayPct (1 / 10))⌋ = 900 := by
    rw [hpct]
    norm_num
  have hstep : decayUserStep 20 (1 / 10) ⟨1, 1000, 5, true, false⟩ = .error 1 := by
    simp only [decayUserStep, hfl]
    norm_num
  simp only [runDecayForGuild, hstep]

/-- Claim C7 (amended): a role-API failure during the role sync of a
decayed user is caught and logged inside syncMemberRoles, so it never
aborts the pass: a pass over users none of whom hits a storage failure
always completes.  A storage failure (the setXp write or the drop-state
writes) for one user, however, propagates out of the per-user loop of
runDecayForGuild, aborting the pass with all remaining users unprocessed;
it is caught only at the scheduler level. -/
theorem decay_pass_error_handling_amended :
    (∀ (minM : ℕ) (p : ℚ) (users : List DecayUser),
      (∀ u ∈ users, u.storageFails = false) →
      (runDecayForGuild minM p users).2 = none) ∧
    (∀ (minM : ℕ) (p : ℚ) (u : DecayUser) (rest : List DecayUser) (e : ℕ),
      decayUserStep minM p u = .error e →
      runDecayForGuild minM p (u :: rest) = ([], some e)) := by
  refine ⟨fun minM p => runDecayForGuild_no_abort minM p, ?_⟩
  intro minM p u rest e h
  simp only [runDecayForGuild, h]

/-- Witness: the amended C7 theorem applied at concrete pass inputs. -/
theorem decay_pass_error_handling_amended_witness :
    (runDecayForGuild 20 (1 / 10)
      [⟨1, 1000, 5, false, true⟩, ⟨2, 1000, 5, false, false⟩]).2 = none ∧
    runDecayForGuild 20 (1 / 10)
      [⟨7, 1000, 0, true, false⟩] = ([], some 7) := by
  constructor
  · exact decay_pass_error_handling_amended.1 20 (1 / 10) _ (by decide)
  · refine decay_pass_error_handling_amended.2 20 (1 / 10) ⟨7, 1000, 0, true, false⟩ [] 7 ?_
    have hpct : decayPct (1 / 10 : ℚ) = 1 / 10 := by
      unfold decayPct
      rw [max_eq_right (by norm_num), min_eq_right (by norm_num)]
    have hfl : ⌊((1000 : ℕ) : ℚ) * (1 - decayPct (1 / 10))⌋ = 900 := by
      rw [hpct]
      norm_num
    simp only [decayUserStep, hfl]
    norm_num

/-! The leaderboard query. -/

theorem topUsers_take_pairwise (rows : List (ℕ × ℤ)) (limit : ℕ) :
    ((rows.mergeSort (fun a b => decide (b.2 ≤ a.2))).take limit).Pairwise
      (fun a b => b.2 ≤ a.2) := by
  have hs : (rows.mergeSort (fun a b => decide (b.2 ≤ a.2))).Pairwise
      (fun a b => decide (b.2 ≤ a.2) = true) :=
    List.sorted_mergeSort
      (fun a b c h1 h2 => by
        simp only [decide_eq_true_eq] at *
        exact le_trans h2 h1)
      (fun a b => by
        simp only [Bool.or_eq_true, decide_eq_true_eq]
        exact le_total b.2 a.2)
      rows
  exact (hs.imp fun h => of_decide_eq_true h).sublist (List.take_sublist _ _)

/-- Claim C8: topUsers returns the guild rows ordered by descending xp (for
every pair of returned entries, the later one has xp at most the earlier
one), and the result is a deterministic function of the stored rows, so
two calls on the same stored state return the same list. -/
theorem topUsers_sorted_det :
    (∀ (rows : List (ℕ × ℤ)) (limit : ℕ),
      (topUsers rows limit).Pairwise (fun a b => b.2 ≤ a.2)) ∧
    (∀ (rows1 rows2 : List (ℕ × ℤ)) (limit : ℕ), rows1 = rows2 →
      topUsers rows1 limit = topUsers rows2 limit) := by
  constructor
  · intro rows limit
    simp only [topUsers]
    rw [List.pairwise_map]
    exact (topUsers_take_pairwise rows limit).imp fun h => clampXpTotal_mono h
  · intro rows1 rows2 limit h
    rw [h]

/-- Witness: the C8 theorem applied at a concrete table. -/
theorem topUsers_sorted_det_witness :
    (topUsers [(1, 5), (2, 9), (3, 9)] 10).Pairwise (fun a b => b.2 ≤ a.2) ∧
    topUsers [(1, 5)] 3 = topUsers [(1, 5)] 3 :=
  ⟨topUsers_sorted_det.1 [(1, 5), (2, 9), (3, 9)] 10,
   topUsers_sorted_det.2 [(1, 5)] [(1, 5)] 3 rfl⟩

/-- Claim C9: when any of the three XP-rate options of /setxp is
out-of-range (negative, or above MAX_XP_AWARD; non-finite inputs cannot
reach the handler through integer options), the handler rejects before
calling updateGuildSettings, so every field of the stored settings record
is unchanged. -/
theorem setxp_rejects_before_mutation :
    ∀ (s : GuildSettings) (o : SetXpOptions),
      validateXpValueErr o.message = true ∨ validateXpValueErr o.reaction = true ∨
        validateXpValueErr o.voice = true →
      handleSetXp s o = (s, true) := by
  intro s o h
  simp only [handleSetXp]
  rw [if_pos (by rcases h with h | h | h <;> simp [h])]

/-- Witness: the C9 theorem applied at a concrete negative XP rate. -/
theorem setxp_rejects_before_mutation_witness :
    handleSetXp ⟨5, 2, 1, 20, 10⟩ ⟨some (-3), none, none, none, none⟩ =
      (⟨5, 2, 1, 20, 10⟩, true) :=
  setxp_rejects_before_mutation _ _ (Or.inl (by decide))

/-- Claim C10: getXp on a (guild, user) with no stored row returns 0 and
leaves the store untouched; moreover no getXp call ever changes the set
of stored row keys (the in-place normalization of a corrupt value keeps
the key), so rows are only created by the award and set operations, which
go through ensureUser. -/
theorem getXp_missing_row :
    (∀ (store : ScoreStore) (g u : ℕ), findXpRow store g u = none →
      getXp store g u = (0, store)) ∧
    (∀ (store : ScoreStore) (g u : ℕ),
      ((getXp store g u).2).map Prod.fst = store.map Prod.fst) := by
  constructor
  · intro store g u h
    simp only [getXp, h]
  · intro store g u
    simp only [getXp]
    split
    · rfl
    · split
      · rfl
      · rw [List.map_map]
        apply List.map_congr_left
        intro r _
        simp only [Function.comp_apply]
        split <;> rfl

/-- Witness: the C10 theorem applied at a concrete store with no matching
row. -/
theorem getXp_missing_row_witness :
    getXp [((1, 1), 5)] 1 2 = (0, [((1, 1), 5)]) ∧
    ((getXp [((1, 1), 5)] 1 2).2).map Prod.fst = [((1, 1), 5)].map Prod.fst :=
  ⟨getXp_missing_row.1 [((1, 1), 5)] 1 2 (by decide),
   getXp_missing_row.2 [((1, 1), 5)] 1 2⟩

end HeisenXP
